import Mathlib

/-!
Verification development for the UniversalParser repository.

The repository consists of a React frontend (`frontend/src/App.jsx`, plus an
older revision of the same file) and a FastAPI backend implementing the
document ingestion and extraction core. The frontend files are embedded
directly from their source; the backend core (classifier, document store,
strategy registry, primary/fallback extractor, orchestrator, HTTP boundary)
is modelled from the specification, as its source is not part of the
visible tree.
-/

namespace UP

/-- Modelled from the spec: the fixed set of document kinds
(§3 `kind`: one of PDF, EXCEL, CSV, DOCX, HTML, UNKNOWN). -/
inductive DocumentKind
  | PDF
  | EXCEL
  | CSV
  | DOCX
  | HTML
  | UNKNOWN
deriving DecidableEq, Repr

/-- Modelled from the spec: the error taxonomy of §7. -/
inductive Err
  | UnreadableDocument
  | NotFound
  | UnsupportedFormat
  | InvalidPage
  | UnknownSheet
  | ExtractionFailed
deriving DecidableEq, Repr

/-- Lower-case a string character by character. -/
def toLowerStr (s : String) : String :=
  String.mk (s.toList.map Char.toLower)

/-- Extension of a filename: the final `"."`-suffixed component, or `""`
when the name contains no dot. -/
def extensionOf (filename : String) : String :=
  let rev := filename.toList.reverse
  let pre := rev.takeWhile (fun c => c ≠ '.')
  if pre.length < rev.length then String.mk ('.' :: pre.reverse) else ""

/-- Modelled from the spec: the Format Classifier's extension table (§4.1),
applied to an already lower-cased extension. -/
def classifyExt (e : String) : DocumentKind :=
  if e = ".pdf" then .PDF
  else if e = ".xlsx" ∨ e = ".xlsm" then .EXCEL
  else if e = ".csv" then .CSV
  else if e = ".docx" then .DOCX
  else if e = ".htm" ∨ e = ".html" then .HTML
  else .UNKNOWN

/-- Modelled from the spec: `classify(filename, contentBytes) -> DocumentKind`
(§4.1). Uses the case-insensitive file extension as the only signal; the
content bytes are ignored (extension-only classification). -/
def classify (filename : String) (contentBytes : List Nat) : DocumentKind :=
  classifyExt (toLowerStr (extensionOf filename))

/-- Modelled from the spec: the external collaborators of the core, missing
from the visible tree (§4.4's rich engine and general-purpose PDF text API,
§4.2's workbook opening, §4.3's per-format converters). Each is an abstract
but fixed function of the document bytes. `pdfPageCount`/`excelSheetNames`
return `none` when the bytes cannot be opened as that kind; `pdfRawText`
returns `none` when a page is unreadable; `richConvert` may raise an
extraction error. -/
structure Env where
  richAvailable : Bool
  richConvert : List Nat → Nat → Except String String
  pdfPageCount : List Nat → Option Nat
  pdfRawText : List Nat → Nat → Option String
  excelSheetNames : List Nat → Option (List String)
  renderSheet : List Nat → String → String
  csvToMarkdown : List Nat → String
  docxToMarkdown : List Nat → String
  htmlToMarkdown : List Nat → String

/-- Modelled from the spec: the baseline extractor's best-effort
plain-to-markdown normalization (§4.4 step 2): outer whitespace is trimmed,
interior text — paragraph breaks included — is preserved. -/
def normalizeToMarkdown (t : String) : String :=
  String.mk (((t.toList.dropWhile Char.isWhitespace).reverse.dropWhile
    Char.isWhitespace).reverse)

/-- Modelled from the spec: the baseline extraction path (§4.4 step 2):
pull raw text for the page from the general-purpose PDF text API and
normalize it. Per §4.4's failure clause and §7, an unreadable page or an
empty result is `ExtractionFailed`, never silently empty output. -/
def baselineExtract (env : Env) (pdfBytes : List Nat) (page : Nat) :
    Except Err String :=
  match env.pdfRawText pdfBytes page with
  | none => .error .ExtractionFailed
  | some t =>
      let md := normalizeToMarkdown t
      if md = "" then .error .ExtractionFailed else .ok md

/-- A record of one invocation of an extraction engine, used to state that a
rejected request performs no extraction work. -/
inductive EngineCall
  | rich (page : Nat)
  | baseline (page : Nat)
  | sheetRender (sheet : String)
deriving DecidableEq, Repr

/-- Modelled from the spec: the Primary/Fallback Extractor
`extractPage(pdfBytes, pageNumber) -> markdown` (§4.4): try the rich engine
when it is configured and reachable, fall back to the baseline path when it
is unavailable or errors. The second component records every engine
invocation. -/
def extractPage (env : Env) (pdfBytes : List Nat) (page : Nat) :
    Except Err String × List EngineCall :=
  if env.richAvailable then
    match env.richConvert pdfBytes page with
    | .ok md => (.ok md, [.rich page])
    | .error _ => (baselineExtract env pdfBytes page, [.rich page, .baseline page])
  else
    (baselineExtract env pdfBytes page, [.baseline page])

/-- Modelled from the spec: one stored Document (§3): opaque id, original
filename, derived kind, immutable raw bytes, the upload's content type, and
the derived format-specific metadata (`pageCount` for PDF only,
`sheetNames` for EXCEL only). -/
structure Document where
  id : Nat
  filename : String
  kind : DocumentKind
  content : List Nat
  contentType : String
  pageCount : Option Nat
  sheetNames : Option (List String)
deriving DecidableEq, Repr

/-- Modelled from the spec: the Document Store (§4.2): the process-lifetime
identifier-to-Document mapping, as an association list in insertion order,
plus the fresh-id source. -/
structure Store where
  docs : List (Nat × Document)
  nextId : Nat
deriving DecidableEq, Repr

/-- Look a document up by id. -/
def Store.lookup (st : Store) (i : Nat) : Option Document :=
  (st.docs.find? (fun q => q.1 == i)).map Prod.snd

/-- Modelled from the spec: the metadata computation inside `put` (§4.2):
opens a PDF to count pages, opens an Excel workbook to list sheet names, no
extra metadata for the remaining kinds; `UnreadableDocument` when the bytes
cannot be opened as the classified kind. -/
def computeMeta (env : Env) (k : DocumentKind) (bytes : List Nat) :
    Except Err (Option Nat × Option (List String)) :=
  match k with
  | .PDF =>
      match env.pdfPageCount bytes with
      | none => .error .UnreadableDocument
      | some n => .ok (some n, none)
  | .EXCEL =>
      match env.excelSheetNames bytes with
      | none => .error .UnreadableDocument
      | some ns => .ok (none, some ns)
  | _ => .ok (none, none)

/-- The Document a successful `put` creates: the store's fresh id, the
given filename and content type, the classified kind, the bytes unchanged,
and the derived metadata. -/
def mkDocument (st : Store) (filename contentType : String)
    (bytes : List Nat) (pc : Option Nat) (sns : Option (List String)) :
    Document :=
  ⟨st.nextId, filename, classify filename bytes, bytes, contentType, pc, sns⟩

/-- Modelled from the spec: `put(filename, contentBytes) -> Document`
(§4.2): classify, compute format-specific metadata, assign a fresh id,
append the Document to the store. -/
def Store.put (st : Store) (env : Env) (filename contentType : String)
    (bytes : List Nat) : Except Err Document × Store :=
  match computeMeta env (classify filename bytes) bytes with
  | .error e => (.error e, st)
  | .ok (pc, sns) =>
      (.ok (mkDocument st filename contentType bytes pc sns),
        ⟨st.docs ++ [(st.nextId, mkDocument st filename contentType bytes pc sns)],
          st.nextId + 1⟩)

/-- Modelled from the spec: `get(id) -> Document` (§4.2), `NotFound` when
no Document with that id exists. -/
def Store.get (st : Store) (i : Nat) : Except Err Document :=
  match st.lookup i with
  | some d => .ok d
  | none => .error .NotFound

/-- Modelled from the spec: `rawBytes(id) -> byte stream` (§4.2): the
stored content unchanged, `NotFound` under the same condition as `get`. -/
def Store.rawBytes (st : Store) (i : Nat) : Except Err (List Nat) :=
  (st.get i).map Document.content

/-- Modelled from the spec: the PDF strategy (§4.3): requires `page` in
`[1, pageCount]`, fails with `InvalidPage` otherwise (a missing `page`
included, per §7), and delegates to the Primary/Fallback Extractor scoped
to the single page. -/
def pdfStrategy (env : Env) (d : Document) (page : Option Nat) :
    Except Err String × List EngineCall :=
  match page with
  | none => (.error .InvalidPage, [])
  | some p =>
      if 1 ≤ p ∧ p ≤ d.pageCount.getD 0 then extractPage env d.content p
      else (.error .InvalidPage, [])

/-- Modelled from the spec: the EXCEL strategy (§4.3): `sheet` optional;
when omitted, the first sheet in workbook order is rendered; when provided,
it must be a member of `sheetNames`, else `UnknownSheet`. Renders that one
sheet only. -/
def excelStrategy (env : Env) (d : Document) (sheet : Option String) :
    Except Err String × List EngineCall :=
  let names := d.sheetNames.getD []
  match sheet with
  | none =>
      match names with
      | [] => (.error .ExtractionFailed, [])
      | s :: _ => (.ok (env.renderSheet d.content s), [.sheetRender s])
  | some s =>
      if s ∈ names then (.ok (env.renderSheet d.content s), [.sheetRender s])
      else (.error .UnknownSheet, [])

/-- Modelled from the spec: the Extraction Strategy Registry (§4.3): pure
dispatch on the document kind; CSV/DOCX/HTML extract the whole document and
ignore `page`/`sheet`; an UNKNOWN kind fails with `UnsupportedFormat`
before any extraction attempt. -/
def extract (env : Env) (d : Document) (page : Option Nat)
    (sheet : Option String) : Except Err String × List EngineCall :=
  match d.kind with
  | .PDF => pdfStrategy env d page
  | .EXCEL => excelStrategy env d sheet
  | .CSV => (.ok (env.csvToMarkdown d.content), [])
  | .DOCX => (.ok (env.docxToMarkdown d.content), [])
  | .HTML => (.ok (env.htmlToMarkdown d.content), [])
  | .UNKNOWN => (.error .UnsupportedFormat, [])

/-- Modelled from the spec: the Request Orchestrator
`handle(documentId, page?, sheet?) -> markdown` (§4.5): look the Document
up, dispatch to its kind's strategy, return the markdown. The store is
threaded through to express that extraction only reads it. -/
def handle (env : Env) (st : Store) (docId : Nat) (page : Option Nat)
    (sheet : Option String) : Except Err String × Store :=
  match st.lookup docId with
  | none => (.error .NotFound, st)
  | some d => ((extract env d page sheet).1, st)

/-- Modelled from the spec: the `POST /upload` success body (§6): exactly
the fields `{id, filename, page_count, content_type, extension}`. -/
structure UploadResponse where
  id : Nat
  filename : String
  page_count : Option Nat
  content_type : String
  ext : String
deriving DecidableEq, Repr

/-- An HTTP response at the system boundary: a status code and an optional
structured body. -/
structure HttpResponse (α : Type) where
  status : Nat
  body : Option α
deriving DecidableEq, Repr

/-- A status code in the 2xx success range. -/
def is2xx (s : Nat) : Bool := 200 ≤ s && s < 300

/-- Modelled from the spec: the status code each taxonomy error surfaces as
(§6/§7 require only that every enumerated failure is non-2xx; the exact
catalog is a collaborator concern). -/
def statusOf : Err → Nat
  | .UnreadableDocument => 400
  | .NotFound => 404
  | .UnsupportedFormat => 415
  | .InvalidPage => 400
  | .UnknownSheet => 400
  | .ExtractionFailed => 500

/-- Modelled from the spec: the `POST /upload` endpoint (§6): `put` the
file, answer 200 with `{id, filename, page_count, content_type, extension}`
on success and a non-2xx status on failure. -/
def uploadEndpoint (env : Env) (st : Store) (filename contentType : String)
    (bytes : List Nat) : HttpResponse UploadResponse × Store :=
  match (Store.put st env filename contentType bytes).1 with
  | .ok d =>
      (⟨200, some ⟨d.id, d.filename, d.pageCount, d.contentType,
          extensionOf d.filename⟩⟩,
        (Store.put st env filename contentType bytes).2)
  | .error e =>
      (⟨statusOf e, none⟩, (Store.put st env filename contentType bytes).2)

/-- Modelled from the spec: the `GET /pdf/{id}` endpoint (§6): the raw
stored byte stream, unchanged, for external preview rendering. -/
def pdfEndpoint (st : Store) (i : Nat) : HttpResponse (List Nat) :=
  match st.rawBytes i with
  | .ok b => ⟨200, some b⟩
  | .error e => ⟨statusOf e, none⟩

/-! Frontend embeddings, taken directly from the two revisions of
`App.jsx` in the tree. -/

/-- One hexadecimal digit character. -/
def hexDigit (n : Nat) : Char :=
  if n < 10 then Char.ofNat (48 + n) else Char.ofNat (55 + n)

/-- Whether `encodeURIComponent` leaves a character unescaped. -/
def isUnreservedURIChar (c : Char) : Bool :=
  c.isAlphanum || "-_.!~*'()".toList.contains c

/-- JavaScript's `encodeURIComponent`, restricted to single-byte code
points, which is all the model needs. -/
def encodeURIComponent (s : String) : String :=
  String.join (s.toList.map (fun c =>
    if isUnreservedURIChar c then String.mk [c]
    else String.mk ['%', hexDigit (c.toNat / 16 % 16), hexDigit (c.toNat % 16)]))

/-- The parse-request URL built by the older frontend
(`src/unnamed/part_000`, `parsePdf`):
`API_BASE/parse/docId?page=selectedPage`. -/
def legacyParseUrl (apiBase docId : String) (selectedPage : Nat) : String :=
  apiBase ++ "/parse/" ++ docId ++ "?page=" ++ toString selectedPage

/-- The parse-request URL built by the current frontend
(`frontend/src/App.jsx`, `parsePdf`): the page query is added for PDF
documents, and a `sheet` query is appended only for Excel documents with a
non-empty selected sheet. -/
def currentParseUrl (apiBase docId : String) (isPdf isExcel : Bool)
    (selectedPage : Nat) (selectedSheet : String) : String :=
  let url :=
    if isPdf then apiBase ++ "/parse/" ++ docId ++ "?page=" ++ toString selectedPage
    else apiBase ++ "/parse/" ++ docId
  if isExcel ∧ selectedSheet ≠ "" then
    let joiner := if url.contains '?' then "&" else "?"
    url ++ joiner ++ "sheet=" ++ encodeURIComponent selectedSheet
  else url

/-- The older frontend's response rule (`src/unnamed/part_000`, line 179):
`setMarkdown(data.markdown || "No markdown returned.")`, with an absent
field modelled as `none` and JavaScript string falsiness as `""`. -/
def legacyDisplayedMarkdown (markdownField : Option String) : String :=
  match markdownField with
  | none => "No markdown returned."
  | some s => if s = "" then "No markdown returned." else s

/-- The current frontend's response rule (`frontend/src/App.jsx`,
line 232): `setMarkdown(data.markdown || "No markdown returned.")`. -/
def currentDisplayedMarkdown (markdownField : Option String) : String :=
  match markdownField with
  | none => "No markdown returned."
  | some s => if s = "" then "No markdown returned." else s

/-- The current frontend's document-kind flags (`frontend/src/App.jsx`,
lines 161-162): `isPdf` and `isExcel` are computed from the lower-cased
extension returned by the upload response. -/
def frontendIsPdf (ext : String) : Bool := toLowerStr ext == ".pdf"

/-- See `frontendIsPdf`; the Excel flag checks membership of the
lower-cased extension in `[".xlsx", ".xlsm"]`. -/
def frontendIsExcel (ext : String) : Bool :=
  [".xlsx", ".xlsm"].contains (toLowerStr ext)

/-- A concrete environment used by the witness theorems. -/
def sampleEnv : Env where
  richAvailable := false
  richConvert := fun _ _ => .error "rich engine not installed"
  pdfPageCount := fun b => if b = [] then none else some 3
  pdfRawText := fun _ p => if p ≤ 3 then some "Hello\n\nWorld" else none
  excelSheetNames := fun b => if b = [] then none else some ["Q1", "Q2"]
  renderSheet := fun _ s => "| " ++ s ++ " |"
  csvToMarkdown := fun _ => "| a | b |"
  docxToMarkdown := fun _ => "# Heading"
  htmlToMarkdown := fun _ => "text"

/-- A concrete PDF document, as `put` would create it under `sampleEnv`. -/
def samplePdfDoc : Document :=
  ⟨0, "report.pdf", .PDF, [37, 80, 68, 70], "application/pdf", some 3, none⟩

/-- A concrete EXCEL document, as `put` would create it under `sampleEnv`. -/
def sampleExcelDoc : Document :=
  ⟨1, "budget.xlsx", .EXCEL, [80, 75], "application/vnd.ms-excel", none,
    some ["Q1", "Q2"]⟩

/-- A baseline success is never the empty string: §4.4's failure clause
turns an unproducible result into `ExtractionFailed` rather than empty
output. -/
theorem baseline_ok_ne_empty (env : Env) (b : List Nat) (p : Nat)
    (m : String) (h : baselineExtract env b p = .ok m) : m ≠ "" := by
  unfold baselineExtract at h
  cases hr : env.pdfRawText b p <;> rw [hr] at h
  · exact Except.noConfusion h
  · rename_i t
    by_cases he : normalizeToMarkdown t = ""
    · simp only [he, if_pos] at h
      exact Except.noConfusion h
    · simp only [if_neg he] at h
      injection h with h2
      exact h2 ▸ he

/-- C1: for every PDF byte content and page, if the rich extraction engine
is not configured, not installed, or raises any extraction error,
`extractPage` returns exactly the baseline extractor's result, and whenever
the baseline path can read the page the overall result is non-empty
markdown, never an error. -/
theorem c1_fallback_nonempty (env : Env) (pdf : List Nat) (page : Nat)
    (hrich : env.richAvailable = false ∨
      ∃ msg, env.richConvert pdf page = .error msg)
    (hreadable : ∃ m, baselineExtract env pdf page = .ok m) :
    (extractPage env pdf page).1 = baselineExtract env pdf page ∧
    ∃ m, (extractPage env pdf page).1 = .ok m ∧ m ≠ "" := by
  have hfb : (extractPage env pdf page).1 = baselineExtract env pdf page := by
    unfold extractPage
    by_cases ha : env.richAvailable = true
    · rcases hrich with h | ⟨msg, h⟩
      · rw [h] at ha
        exact absurd ha (by simp)
      · simp [ha, h]
    · simp only [Bool.not_eq_true] at ha
      simp [ha]
  obtain ⟨m, hm⟩ := hreadable
  refine ⟨hfb, m, ?_, baseline_ok_ne_empty env pdf page m hm⟩
  rw [hfb]
  exact hm

/-- C1 witness: under the sample environment the rich engine is not
configured, page 2 is readable, and extraction of page 2 degrades to the
baseline result, which is non-empty. -/
theorem c1_fallback_nonempty_witness :
    (sampleEnv.richAvailable = false ∨
      ∃ msg, sampleEnv.richConvert [1] 2 = .error msg) ∧
    (∃ m, baselineExtract sampleEnv [1] 2 = .ok m) ∧
    ((extractPage sampleEnv [1] 2).1 = baselineExtract sampleEnv [1] 2 ∧
      ∃ m, (extractPage sampleEnv [1] 2).1 = .ok m ∧ m ≠ "") :=
  ⟨Or.inl rfl, ⟨"Hello\n\nWorld", rfl⟩,
    c1_fallback_nonempty sampleEnv [1] 2 (Or.inl rfl)
      ⟨"Hello\n\nWorld", rfl⟩⟩

/-- C2: for every PDF document with `some n` pages, a request whose page is
missing or outside `[1, n]` fails with `InvalidPage` and performs no engine
invocation at all (the recorded engine-call trace is empty). -/
theorem c2_invalid_page_no_engine (env : Env) (d : Document) (n : Nat)
    (page : Option Nat) (sheet : Option String)
    (hkind : d.kind = .PDF) (hpc : d.pageCount = some n)
    (hbad : ∀ p, page = some p → ¬(1 ≤ p ∧ p ≤ n)) :
    extract env d page sheet = (.error .InvalidPage, []) := by
  unfold extract
  rw [hkind]
  unfold pdfStrategy
  cases page with
  | none => rfl
  | some p =>
      have hcond : ¬(1 ≤ p ∧ p ≤ d.pageCount.getD 0) := by
        rw [hpc]
        exact hbad p rfl
      simp [hcond]

/-- C2 witness: requesting page 5 of the sample 3-page PDF yields
`InvalidPage` with an empty engine-call trace. -/
theorem c2_invalid_page_no_engine_witness :
    samplePdfDoc.kind = .PDF ∧ samplePdfDoc.pageCount = some 3 ∧
    extract sampleEnv samplePdfDoc (some 5) none =
      (.error .InvalidPage, []) :=
  ⟨rfl, rfl,
    c2_invalid_page_no_engine sampleEnv samplePdfDoc 3 (some 5) none rfl rfl
      (by intro p hp; cases hp; decide)⟩

/-- C3: for every EXCEL document whose sheet list is `s0 :: rest`, a
request omitting `sheet` renders exactly the first sheet `s0` (and only
it), and a request naming a sheet outside the list fails with
`UnknownSheet` with no rendering work performed. -/
theorem c3_excel_first_sheet_unknown (env : Env) (d : Document)
    (s0 : String) (rest : List String) (page : Option Nat)
    (hkind : d.kind = .EXCEL) (hns : d.sheetNames = some (s0 :: rest)) :
    extract env d page none =
      (.ok (env.renderSheet d.content s0), [.sheetRender s0]) ∧
    ∀ s, s ∉ s0 :: rest →
      extract env d page (some s) = (.error .UnknownSheet, []) := by
  constructor
  · unfold extract
    rw [hkind]
    unfold excelStrategy
    rw [hns]
    rfl
  · intro s hs
    unfold extract
    rw [hkind]
    unfold excelStrategy
    rw [hns]
    simp [hs]

/-- C3 witness: the sample workbook with sheets `["Q1", "Q2"]` defaults to
`Q1` when no sheet is given, and `"Q3"` yields `UnknownSheet`. -/
theorem c3_excel_first_sheet_unknown_witness :
    sampleExcelDoc.kind = .EXCEL ∧
    sampleExcelDoc.sheetNames = some ("Q1" :: ["Q2"]) ∧
    (extract sampleEnv sampleExcelDoc none none =
        (.ok (sampleEnv.renderSheet sampleExcelDoc.content "Q1"),
          [.sheetRender "Q1"]) ∧
      ∀ s, s ∉ "Q1" :: ["Q2"] →
        extract sampleEnv sampleExcelDoc none (some s) =
          (.error .UnknownSheet, [])) :=
  ⟨rfl, rfl,
    c3_excel_first_sheet_unknown sampleEnv sampleExcelDoc "Q1" ["Q2"] none
      rfl rfl⟩

/-- C4: `classify` is a function of the case-insensitive file extension
alone: the content bytes never affect the resulting kind, and the kind is
exactly the extension table of §4.1. -/
theorem c4_classify_by_extension (f : String) (b : List Nat) :
    (∀ b2, classify f b2 = classify f b) ∧
    (toLowerStr (extensionOf f) = ".pdf" → classify f b = .PDF) ∧
    (toLowerStr (extensionOf f) = ".xlsx" ∨ toLowerStr (extensionOf f) = ".xlsm" →
      classify f b = .EXCEL) ∧
    (toLowerStr (extensionOf f) = ".csv" → classify f b = .CSV) ∧
    (toLowerStr (extensionOf f) = ".docx" → classify f b = .DOCX) ∧
    (toLowerStr (extensionOf f) = ".htm" ∨ toLowerStr (extensionOf f) = ".html" →
      classify f b = .HTML) ∧
    (toLowerStr (extensionOf f) ∉
        ([".pdf", ".xlsx", ".xlsm", ".csv", ".docx", ".htm", ".html"] : List String) →
      classify f b = .UNKNOWN) := by
  refine ⟨fun _ => rfl, ?_, ?_, ?_, ?_, ?_, ?_⟩
  · intro h
    unfold classify classifyExt
    rw [h]
    decide
  · rintro (h | h) <;> (unfold classify classifyExt; rw [h]; decide)
  · intro h
    unfold classify classifyExt
    rw [h]
    decide
  · intro h
    unfold classify classifyExt
    rw [h]
    decide
  · rintro (h | h) <;> (unfold classify classifyExt; rw [h]; decide)
  · intro h
    simp only [List.mem_cons, List.not_mem_nil, or_false, not_or] at h
    obtain ⟨h1, h2, h3, h4, h5, h6, h7⟩ := h
    unfold classify classifyExt
    rw [if_neg h1, if_neg (not_or.mpr ⟨h2, h3⟩), if_neg h4, if_neg h5,
      if_neg (not_or.mpr ⟨h6, h7⟩)]

/-- C4 witness: `report.PDF` classifies as PDF regardless of the bytes. -/
theorem c4_classify_by_extension_witness :
    toLowerStr (extensionOf "report.PDF") = ".pdf" ∧
    classify "report.PDF" [37, 80] = .PDF :=
  ⟨rfl, (c4_classify_by_extension "report.PDF" [37, 80]).2.1 rfl⟩

/-- C5: `handle` never modifies the store, so repeating the same extraction
request `(documentId, page, sheet)` against the resulting store yields an
identical markdown result. -/
theorem c5_repeat_extraction_identical (env : Env) (st : Store)
    (docId : Nat) (page : Option Nat) (sheet : Option String) :
    (handle env st docId page sheet).2 = st ∧
    (handle env (handle env st docId page sheet).2 docId page sheet).1 =
      (handle env st docId page sheet).1 := by
  have h2 : (handle env st docId page sheet).2 = st := by
    unfold handle
    cases st.lookup docId <;> rfl
  exact ⟨h2, by rw [h2]⟩

/-- Modelled from the spec: the derived-metadata agreement invariant of §3:
`kind` matches the classifier on the stored filename and content,
`pageCount` is exactly what the PDF collaborator derives from the content
(and absent for non-PDF kinds), `sheetNames` exactly what the workbook
collaborator derives (and absent for non-EXCEL kinds). -/
def metaOk (env : Env) (d : Document) : Prop :=
  d.kind = classify d.filename d.content ∧
  (d.kind = .PDF → env.pdfPageCount d.content = d.pageCount) ∧
  (d.kind ≠ .PDF → d.pageCount = none) ∧
  (d.kind = .EXCEL → env.excelSheetNames d.content = d.sheetNames) ∧
  (d.kind ≠ .EXCEL → d.sheetNames = none)

/-- Store well-formedness: every entry's key equals the stored document's
own id, every key is below the fresh-id counter, and every stored document
satisfies the derived-metadata invariant. -/
def StoreWF (env : Env) (st : Store) : Prop :=
  ∀ q ∈ st.docs, q.2.id = q.1 ∧ q.1 < st.nextId ∧ metaOk env q.2

/-- The empty store a process starts from. -/
def store0 : Store := ⟨[], 0⟩

/-- A document built by a successful `computeMeta` satisfies the
derived-metadata invariant. -/
theorem metaOk_of_computeMeta (env : Env) (i : Nat) (f ct : String)
    (b : List Nat) (pc : Option Nat) (sns : Option (List String))
    (hm : computeMeta env (classify f b) b = .ok (pc, sns)) :
    metaOk env ⟨i, f, classify f b, b, ct, pc, sns⟩ := by
  unfold computeMeta at hm
  unfold metaOk
  cases hk : classify f b <;> rw [hk] at hm
  case PDF =>
      cases hp : env.pdfPageCount b <;> rw [hp] at hm
      · exact Except.noConfusion hm
      · rename_i n
        injection hm with hm'
        obtain ⟨h1, h2⟩ := Prod.mk.inj hm'
        subst h1; subst h2
        simp
  case EXCEL =>
      cases hs : env.excelSheetNames b <;> rw [hs] at hm
      · exact Except.noConfusion hm
      · rename_i ns
        injection hm with hm'
        obtain ⟨h1, h2⟩ := Prod.mk.inj hm'
        subst h1; subst h2
        simp
  all_goals
    injection hm with hm'
    obtain ⟨h1, h2⟩ := Prod.mk.inj hm'
    subst h1; subst h2
    simp

/-- Shape of a successful `put`: the returned document carries the fresh
id, the given filename, content type and bytes, the classified kind and
derived metadata, and the new store appends it after the existing entries
with the counter advanced. -/
theorem put_ok_shape (env : Env) (st : Store) (f ct : String) (b : List Nat)
    (d : Document) (h : (Store.put st env f ct b).1 = .ok d) :
    d.id = st.nextId ∧ d.filename = f ∧ d.kind = classify f b ∧
    d.content = b ∧ d.contentType = ct ∧ metaOk env d ∧
    (Store.put st env f ct b).2 =
      ⟨st.docs ++ [(st.nextId, d)], st.nextId + 1⟩ := by
  unfold Store.put at h ⊢
  cases hm : computeMeta env (classify f b) b with
  | error e =>
      rw [hm] at h
      exact Except.noConfusion h
  | ok meta =>
      obtain ⟨pc, sns⟩ := meta
      rw [hm] at h
      dsimp only at h ⊢
      injection h with h'
      subst h'
      exact ⟨rfl, rfl, rfl, rfl, rfl,
        metaOk_of_computeMeta env st.nextId f ct b pc sns hm, rfl⟩

/-- A failed `put` leaves the store untouched. -/
theorem put_error_shape (env : Env) (st : Store) (f ct : String)
    (b : List Nat) (e : Err) (h : (Store.put st env f ct b).1 = .error e) :
    (Store.put st env f ct b).2 = st := by
  unfold Store.put at h ⊢
  cases hm : computeMeta env (classify f b) b with
  | error e' => rfl
  | ok meta =>
      obtain ⟨pc, sns⟩ := meta
      rw [hm] at h
      dsimp only at h
      exact Except.noConfusion h

/-- A well-formed store has no entry at the fresh id. -/
theorem lookup_nextId_none (env : Env) (st : Store) (hwf : StoreWF env st) :
    st.lookup st.nextId = none := by
  unfold Store.lookup
  cases hfind : st.docs.find? (fun q => q.1 == st.nextId) with
  | none => rfl
  | some q =>
      have hpred := List.find?_some hfind
      have hmem := List.mem_of_find?_eq_some hfind
      have hlt := (hwf q hmem).2.1
      simp only [beq_iff_eq] at hpred
      omega

/-- C6: `put` preserves store well-formedness, never updates an existing
binding in place (append-only), stores content byte-for-byte with derived
kind and metadata under a previously unused id, gives a re-upload of the
same file a distinct fresh id, and extraction requests never modify the
store. -/
theorem c6_store_append_only_invariants (env : Env) (st : Store)
    (f ct : String) (b : List Nat) (hwf : StoreWF env st) :
    StoreWF env (Store.put st env f ct b).2 ∧
    (∀ i d, st.lookup i = some d →
      (Store.put st env f ct b).2.lookup i = some d) ∧
    (∀ d, (Store.put st env f ct b).1 = .ok d →
      st.lookup d.id = none ∧ d.content = b ∧ d.kind = classify f b ∧
        metaOk env d) ∧
    (∀ d d', (Store.put st env f ct b).1 = .ok d →
      (Store.put (Store.put st env f ct b).2 env f ct b).1 = .ok d' →
      d.id ≠ d'.id) ∧
    (∀ i p s, (handle env st i p s).2 = st) := by
  refine ⟨?_, ?_, ?_, ?_, ?_⟩
  · cases hput : (Store.put st env f ct b).1 with
    | error e => rw [put_error_shape env st f ct b e hput]; exact hwf
    | ok d =>
        obtain ⟨hid, _, _, _, _, hmeta, hst'⟩ :=
          put_ok_shape env st f ct b d hput
        rw [hst']
        intro q hq
        rcases List.mem_append.mp hq with hq | hq
        · obtain ⟨h1, h2, h3⟩ := hwf q hq
          exact ⟨h1, Nat.lt_succ_of_lt h2, h3⟩
        · rw [List.mem_singleton] at hq
          subst hq
          exact ⟨hid, Nat.lt_succ_self _, hmeta⟩
  · intro i d hlk
    cases hput : (Store.put st env f ct b).1 with
    | error e => rw [put_error_shape env st f ct b e hput]; exact hlk
    | ok d' =>
        obtain ⟨_, _, _, _, _, _, hst'⟩ := put_ok_shape env st f ct b d' hput
        rw [hst']
        unfold Store.lookup at hlk ⊢
        obtain ⟨q, hq1, hq2⟩ := Option.map_eq_some'.mp hlk
        rw [List.find?_append, hq1]
        exact congrArg (Option.map Prod.snd) rfl ▸ by
          simp [Option.or, hq2]
  · intro d hput
    obtain ⟨hid, _, hkind, hcontent, _, hmeta, _⟩ :=
      put_ok_shape env st f ct b d hput
    refine ⟨?_, hcontent, hkind, hmeta⟩
    rw [hid]
    exact lookup_nextId_none env st hwf
  · intro d d' hput hput'
    obtain ⟨hid, _, _, _, _, _, hst'⟩ := put_ok_shape env st f ct b d hput
    obtain ⟨hid', _, _, _, _, _, _⟩ :=
      put_ok_shape env (Store.put st env f ct b).2 f ct b d' hput'
    rw [hst'] at hid'
    dsimp only at hid'
    omega
  · intro i p s
    unfold handle
    cases st.lookup i <;> rfl

/-- C6 witness: the empty store is well-formed, and uploading a one-byte
`report.pdf` into it enjoys every invariant of the claim. -/
theorem c6_store_append_only_invariants_witness :
    StoreWF sampleEnv store0 ∧
    (StoreWF sampleEnv
        (Store.put store0 sampleEnv "report.pdf" "application/pdf" [37]).2 ∧
      (∀ i d, store0.lookup i = some d →
        (Store.put store0 sampleEnv "report.pdf" "application/pdf"
            [37]).2.lookup i = some d) ∧
      (∀ d, (Store.put store0 sampleEnv "report.pdf" "application/pdf"
          [37]).1 = .ok d →
        store0.lookup d.id = none ∧ d.content = [37] ∧
          d.kind = classify "report.pdf" [37] ∧ metaOk sampleEnv d) ∧
      (∀ d d', (Store.put store0 sampleEnv "report.pdf" "application/pdf"
          [37]).1 = .ok d →
        (Store.put
            (Store.put store0 sampleEnv "report.pdf" "application/pdf" [37]).2
            sampleEnv "report.pdf" "application/pdf" [37]).1 = .ok d' →
        d.id ≠ d'.id) ∧
      (∀ i p s, (handle sampleEnv store0 i p s).2 = store0)) := by
  have hwf : StoreWF sampleEnv store0 := by
    intro q hq
    simp [store0] at hq
  exact ⟨hwf, c6_store_append_only_invariants sampleEnv store0 "report.pdf"
    "application/pdf" [37] hwf⟩

/-- C7: a successful upload answers 200 with a body holding exactly
`{id, filename, page_count, content_type, extension}` drawn from the
stored Document, a failed upload answers the failure's status code with no
body, and every error of the §7 taxonomy maps to a non-2xx status. -/
theorem c7_upload_contract (env : Env) (st : Store) (f ct : String)
    (b : List Nat) :
    (∀ d, (Store.put st env f ct b).1 = .ok d →
      (uploadEndpoint env st f ct b).1 =
        ⟨200, some ⟨d.id, d.filename, d.pageCount, d.contentType,
          extensionOf d.filename⟩⟩) ∧
    (∀ e, (Store.put st env f ct b).1 = .error e →
      (uploadEndpoint env st f ct b).1 = ⟨statusOf e, none⟩) ∧
    (∀ e : Err, is2xx (statusOf e) = false) := by
  refine ⟨?_, ?_, ?_⟩
  · intro d hd
    unfold uploadEndpoint
    rw [hd]
  · intro e he
    unfold uploadEndpoint
    rw [he]
  · intro e
    cases e <;> rfl

/-- C7 witness: uploading a one-byte `report.pdf` into the empty store
succeeds and answers 200 with exactly the five contract fields. -/
theorem c7_upload_contract_witness :
    (Store.put store0 sampleEnv "report.pdf" "application/pdf" [37]).1 =
      .ok (mkDocument store0 "report.pdf" "application/pdf" [37]
        (some 3) none) ∧
    (uploadEndpoint sampleEnv store0 "report.pdf" "application/pdf" [37]).1 =
      ⟨200, some ⟨0, "report.pdf", some 3, "application/pdf", ".pdf"⟩⟩ :=
  ⟨rfl,
    (c7_upload_contract sampleEnv store0 "report.pdf" "application/pdf"
        [37]).1
      (mkDocument store0 "report.pdf" "application/pdf" [37] (some 3) none)
      rfl⟩

/-- Looking up the document a successful `put` just stored finds it. -/
theorem lookup_after_put (env : Env) (st : Store) (f ct : String)
    (b : List Nat) (d : Document) (hwf : StoreWF env st)
    (h : (Store.put st env f ct b).1 = .ok d) :
    (Store.put st env f ct b).2.lookup d.id = some d := by
  obtain ⟨hid, _, _, _, _, _, hst'⟩ := put_ok_shape env st f ct b d h
  rw [hst']
  unfold Store.lookup
  dsimp only
  have hnone : st.docs.find? (fun q => q.1 == st.nextId) = none := by
    have hl := lookup_nextId_none env st hwf
    unfold Store.lookup at hl
    exact Option.map_eq_none'.mp hl
  rw [hid, List.find?_append, hnone]
  simp

/-- C8: `rawBytes` (served as `GET /pdf/{id}`) returns the stored content
byte-for-byte for every present id, fails with `NotFound` (a 404 with no
body at the endpoint) for every absent id, and immediately after an upload
returns exactly the uploaded bytes. -/
theorem c8_rawBytes_unchanged (env : Env) (st : Store)
    (hwf : StoreWF env st) :
    (∀ i d, st.lookup i = some d →
      st.rawBytes i = .ok d.content ∧
        pdfEndpoint st i = ⟨200, some d.content⟩) ∧
    (∀ i, st.lookup i = none →
      st.rawBytes i = .error .NotFound ∧ pdfEndpoint st i = ⟨404, none⟩) ∧
    (∀ f ct b d, (Store.put st env f ct b).1 = .ok d →
      (Store.put st env f ct b).2.rawBytes d.id = .ok b) := by
  refine ⟨?_, ?_, ?_⟩
  · intro i d hlk
    have hraw : st.rawBytes i = .ok d.content := by
      unfold Store.rawBytes Store.get
      rw [hlk]
      rfl
    refine ⟨hraw, ?_⟩
    unfold pdfEndpoint
    rw [hraw]
  · intro i hlk
    have hraw : st.rawBytes i = .error .NotFound := by
      unfold Store.rawBytes Store.get
      rw [hlk]
      rfl
    refine ⟨hraw, ?_⟩
    unfold pdfEndpoint
    rw [hraw]
    rfl
  · intro f ct b d h
    obtain ⟨_, _, _, hcontent, _, _, _⟩ := put_ok_shape env st f ct b d h
    have hlk := lookup_after_put env st f ct b d hwf h
    unfold Store.rawBytes Store.get
    rw [hlk]
    simp [Except.map, hcontent]

/-- C8 witness: in the well-formed empty store every id is absent and
yields `NotFound`, and an upload's bytes read back unchanged. -/
theorem c8_rawBytes_unchanged_witness :
    StoreWF sampleEnv store0 ∧
    store0.lookup 0 = none ∧
    store0.rawBytes 0 = .error .NotFound ∧
    (Store.put store0 sampleEnv "report.pdf" "application/pdf"
        [37, 80]).2.rawBytes 0 = .ok [37, 80] := by
  have hwf : StoreWF sampleEnv store0 := by
    intro q hq
    simp [store0] at hq
  have hc := c8_rawBytes_unchanged sampleEnv store0 hwf
  refine ⟨hwf, rfl, (hc.2.1 0 rfl).1, ?_⟩
  exact hc.2.2 "report.pdf" "application/pdf" [37, 80]
    (mkDocument store0 "report.pdf" "application/pdf" [37, 80] (some 3) none)
    rfl

/-- C9: for a PDF document (`isPdf` true) with a selected page and no
selected sheet, the current frontend builds exactly the older frontend's
parse URL `API_BASE/parse/docId?page=n` — whatever the Excel flag — and the
two frontends apply the same display rule to the response's markdown
field. -/
theorem c9_frontends_parse_agree (apiBase docId : String) (isExcel : Bool)
    (selectedPage : Nat) (m : Option String) :
    currentParseUrl apiBase docId true isExcel selectedPage "" =
      legacyParseUrl apiBase docId selectedPage ∧
    currentDisplayedMarkdown m = legacyDisplayedMarkdown m := by
  constructor
  · unfold currentParseUrl legacyParseUrl
    rw [if_neg (fun h => h.2 rfl)]
    simp
  · rfl

/-- C10: whenever a 2xx parse response carries no markdown field or an
empty one, both frontends display the fixed placeholder
`"No markdown returned."` rather than the empty extraction result. -/
theorem c10_empty_markdown_placeholder (m : Option String)
    (h : m = none ∨ m = some "") :
    currentDisplayedMarkdown m = "No markdown returned." ∧
    legacyDisplayedMarkdown m = "No markdown returned." := by
  rcases h with h | h <;> subst h <;> exact ⟨rfl, by rfl⟩

/-- C10 witness: the placeholder is displayed for an absent markdown
field. -/
theorem c10_empty_markdown_placeholder_witness :
    ((none : Option String) = none ∨ (none : Option String) = some "") ∧
    (currentDisplayedMarkdown none = "No markdown returned." ∧
      legacyDisplayedMarkdown none = "No markdown returned.") :=
  ⟨Or.inl rfl, c10_empty_markdown_placeholder none (Or.inl rfl)⟩

end UP
